import Mathlib

/-!
Verification of the Task Management API core: a shallow embedding of the
request-to-storage pipeline (pydantic validation, service layer, SQLAlchemy
repository) and proofs of the spec's testable properties.

Storage is a list of rows in insertion order (the stable order of the store);
the clock is an explicit `now : Nat` parameter; SQL NULL is `Option.none`.
-/

namespace TaskAPI

/-- Closed set of status strings.  Modelled from the spec: the file
`app/models/enums.py` defining `TaskStatus` is not in the source tree; the
spec fixes the closed enumeration \x7bpending, in_progress, completed\x7d. -/
inductive TaskStatus where
  | pending
  | in_progress
  | completed
deriving DecidableEq, Repr

/-- Closed set of priority strings.  Modelled from the spec: the file
`app/models/enums.py` defining `TaskPriority` is not in the source tree; the
spec fixes the closed enumeration \x7blow, medium, high\x7d. -/
inductive TaskPriority where
  | low
  | medium
  | high
deriving DecidableEq, Repr

/-- String value of a status member (enum-as-string storage representation). -/
def TaskStatus.value : TaskStatus → String
  | .pending => "pending"
  | .in_progress => "in_progress"
  | .completed => "completed"

/-- String value of a priority member. -/
def TaskPriority.value : TaskPriority → String
  | .low => "low"
  | .medium => "medium"
  | .high => "high"

/-- The strings accepted for `status` (members of the closed enumeration). -/
def statusValues : List String := ["pending", "in_progress", "completed"]

/-- The strings accepted for `priority`. -/
def priorityValues : List String := ["low", "medium", "high"]

/-- Parse a status string against the closed set (pydantic enum coercion). -/
def parseStatus (s : String) : Option TaskStatus :=
  if s = "pending" then some .pending
  else if s = "in_progress" then some .in_progress
  else if s = "completed" then some .completed
  else none

/-- Parse a priority string against the closed set. -/
def parsePriority (s : String) : Option TaskPriority :=
  if s = "low" then some .low
  else if s = "medium" then some .medium
  else if s = "high" then some .high
  else none

/-- A persisted row of the `tasks` table (`app/models/database.py`, `TaskDB`).
`description` is a nullable column (`Column(String, default="")`), so it is
an `Option`; `none` is SQL NULL.  Timestamps are abstract clock readings. -/
structure TaskDB where
  id : Nat
  title : String
  description : Option String
  status : String
  priority : String
  created_at : Nat
  updated_at : Nat
deriving DecidableEq, Repr

/-- The backing store: rows in insertion order. -/
abbrev Store := List TaskDB

/-- The data passed to `TaskDB(**data)` on create: `TaskCreate.model_dump()`
with enums already in string form. -/
structure TaskCreateDump where
  title : String
  description : Option String
  status : String
  priority : String
deriving DecidableEq, Repr

/-- Validated `TaskCreate` pydantic model (`app/models/domain.py`):
`title: str`, `description: Optional[str] = ""`,
`status: TaskStatus = PENDING`, `priority: TaskPriority = MEDIUM`. -/
structure TaskCreate where
  title : String
  description : Option String
  status : TaskStatus
  priority : TaskPriority
deriving DecidableEq, Repr

/-- `TaskCreate.model_dump()`: enums serialize to their string values. -/
def TaskCreate.model_dump (p : TaskCreate) : TaskCreateDump :=
  ⟨p.title, p.description, p.status.value, p.priority.value⟩

/-- The result of `TaskUpdate.model_dump(exclude_unset=True)`: for each field
the outer `Option` records whether the field was present in the request
body, and the inner `Option` an explicit JSON null versus a value — every
`TaskUpdate` field is `Optional[...] = None`, so each one may be explicitly
null and an explicitly null field still appears in the dump.  A non-null
status or priority must already have parsed into the closed enumeration. -/
structure UpdateFields where
  title : Option (Option String)
  description : Option (Option String)
  status : Option (Option TaskStatus)
  priority : Option (Option TaskPriority)
deriving DecidableEq, Repr

/-- Outcome of a call that may raise: `raised` models an uncaught exception
propagating to the framework (an HTTP 500), `returned v` a normal return. -/
inductive Outcome (α : Type) where
  | raised
  | returned (v : α)
deriving DecidableEq, Repr

/-- The empty update payload: no field was set. -/
def UpdateFields.empty : UpdateFields := ⟨none, none, none, none⟩

/-- A raw JSON body for `POST /tasks` before pydantic validation: each field
is absent (`none`), explicitly null (`some none`), or a string
(`some (some s)`). -/
structure RawCreatePayload where
  title : Option (Option String)
  description : Option (Option String)
  status : Option (Option String)
  priority : Option (Option String)
deriving DecidableEq, Repr

/-- Validation of the `title` field: required, non-nullable `str`. -/
def parseTitleField : Option (Option String) → Option String
  | none => none
  | some none => none
  | some (some t) => some t

/-- Validation of the `description` field: `Optional[str] = ""` — absent
defaults to `""`, an explicit null is accepted and kept. -/
def parseDescriptionField : Option (Option String) → Option (Option String)
  | none => some (some "")
  | some d => some d

/-- Validation of the `status` field: `TaskStatus = PENDING` — absent
defaults to pending, null is rejected, a string must be in the closed set. -/
def parseStatusField : Option (Option String) → Option TaskStatus
  | none => some .pending
  | some none => none
  | some (some s) => parseStatus s

/-- Validation of the `priority` field: `TaskPriority = MEDIUM`. -/
def parsePriorityField : Option (Option String) → Option TaskPriority
  | none => some .medium
  | some none => none
  | some (some s) => parsePriority s

/-- Pydantic validation of a `POST /tasks` body against `TaskCreate`: every
field must validate, else the request fails with 422. -/
def validateCreate (p : RawCreatePayload) : Option TaskCreate :=
  (parseTitleField p.title).bind fun t =>
  (parseDescriptionField p.description).bind fun d =>
  (parseStatusField p.status).bind fun st =>
  (parsePriorityField p.priority).map fun pr => ⟨t, d, st, pr⟩

/-! ## Repository (`SQLAlchemyTaskRepository`) -/

/-- The autoincrement primary key the store assigns to a new row. -/
def nextId (db : Store) : Nat := (db.map (·.id)).foldr max 0 + 1

/-- `create`: builds `TaskDB(**data)`, the store assigns `id` and the column
defaults set `created_at` and `updated_at` to the current time; the new row
is appended.  Returns the refreshed row and the new store. -/
def repoCreate (db : Store) (data : TaskCreateDump) (now : Nat) :
    TaskDB × Store :=
  let t : TaskDB :=
    ⟨nextId db, data.title, data.description, data.status, data.priority,
      now, now⟩
  (t, db ++ [t])

/-- `list`: applies each filter only when the argument is truthy in Python
(`if status:` — absent and empty-string arguments filter nothing), then
`offset(skip).limit(limit)` over the store's stable order. -/
def repoList (db : Store) (status priority : Option String)
    (skip limit : Nat) : List TaskDB :=
  let q := db
  let q := match status with
    | none => q
    | some s => if s = "" then q else q.filter (fun t => t.status == s)
  let q := match priority with
    | none => q
    | some s => if s = "" then q else q.filter (fun t => t.priority == s)
  (q.drop skip).take limit

/-- `get`: first row whose `id` matches, or `None`. -/
def repoGet (db : Store) (task_id : Nat) : Option TaskDB :=
  db.find? (fun t => t.id == task_id)

/-- The `title` column value after `setattr` of the present fields: it may
transiently hold NULL when the payload explicitly nulled the field. -/
def newTitle (t : TaskDB) (f : UpdateFields) : Option String :=
  match f.title with
  | none => some t.title
  | some v => v

/-- The `description` column value after `setattr` of the present fields. -/
def newDescription (t : TaskDB) (f : UpdateFields) : Option String :=
  match f.description with
  | none => t.description
  | some v => v

/-- The `status` column value after `setattr` of the present fields. -/
def newStatus (t : TaskDB) (f : UpdateFields) : Option String :=
  match f.status with
  | none => some t.status
  | some v => v.map TaskStatus.value

/-- The `priority` column value after `setattr` of the present fields. -/
def newPriority (t : TaskDB) (f : UpdateFields) : Option String :=
  match f.priority with
  | none => some t.priority
  | some v => v.map TaskPriority.value

/-- `update`: sets each present field on the row, refreshes `updated_at` to
the current time, and commits.  The commit enforces the NOT NULL constraints
of the `title`, `status` and `priority` columns: an explicitly nulled value
there makes the commit raise IntegrityError and the stored row keeps its
values; otherwise the row with that primary key is replaced in the store. -/
def repoUpdate (db : Store) (task : TaskDB) (f : UpdateFields) (now : Nat) :
    Outcome (TaskDB × Store) :=
  match newTitle task f, newStatus task f, newPriority task f with
  | some ti, some st, some pr =>
    let t : TaskDB :=
      ⟨task.id, ti, newDescription task f, st, pr, task.created_at, now⟩
    .returned (t, db.map (fun u => if u.id == task.id then t else u))
  | _, _, _ => .raised

/-- `delete`: removes the row with the given primary key. -/
def repoDelete (db : Store) (task : TaskDB) : Store :=
  db.filter (fun u => u.id != task.id)

/-- `all`: every row, unfiltered. -/
def repoAll (db : Store) : List TaskDB := db

/-- The distinct values of a list (one group key per distinct value, as
produced by SQL `GROUP BY`). -/
def distinctVals : List String → List String
  | [] => []
  | a :: rest =>
    let d := distinctVals rest
    if a ∈ d then d else a :: d

/-- `GROUP BY` with `COUNT`: one pair per distinct value, with the number of
rows carrying that value. -/
def groupCounts (l : List String) : List (String × Nat) :=
  (distinctVals l).map (fun s => (s, (l.filter (· == s)).length))

/-- The `stats()` result shape. -/
structure Stats where
  total_tasks : Nat
  by_status : List (String × Nat)
  by_priority : List (String × Nat)
deriving DecidableEq, Repr

/-- `stats`: total row count plus counts grouped by status and by priority. -/
def repoStats (db : Store) : Stats :=
  ⟨db.length, groupCounts (db.map (·.status)), groupCounts (db.map (·.priority))⟩

/-! ## Service layer (`TaskService`) -/

/-- `create_task`: dumps the validated payload and delegates to the
repository. -/
def TaskService.create_task (db : Store) (payload : TaskCreate) (now : Nat) :
    TaskDB × Store :=
  repoCreate db payload.model_dump now

/-- `list_tasks`: converts enum filters to their string values
(`status.value if status else None`) and delegates. -/
def TaskService.list_tasks (db : Store) (status : Option TaskStatus)
    (priority : Option TaskPriority) (skip limit : Nat) : List TaskDB :=
  repoList db (status.map TaskStatus.value) (priority.map TaskPriority.value)
    skip limit

/-- `get_task`: delegates to `get`. -/
def TaskService.get_task (db : Store) (task_id : Nat) : Option TaskDB :=
  repoGet db task_id

/-- `update_task`: fetches the current row; if absent returns the `None`
sentinel with the store untouched, else applies exactly the set fields.  An
IntegrityError raised by the gateway commit propagates uncaught (`.raised`)
and the store is unchanged. -/
def TaskService.update_task (db : Store) (task_id : Nat) (f : UpdateFields)
    (now : Nat) : Outcome (Option TaskDB) × Store :=
  match repoGet db task_id with
  | none => (.returned none, db)
  | some task =>
    match repoUpdate db task f now with
    | .raised => (.raised, db)
    | .returned r => (.returned (some r.1), r.2)

/-- `delete_task`: fetches the current row; if absent returns `false`, else
deletes it and returns `true`. -/
def TaskService.delete_task (db : Store) (task_id : Nat) : Bool × Store :=
  match repoGet db task_id with
  | none => (false, db)
  | some task => (true, repoDelete db task)

/-- `stats`: returns the repository stats unchanged. -/
def TaskService.stats (db : Store) : Stats := repoStats db

/-! ## Request handlers (`app/api/v1/endpoints/tasks.py`) -/

/-- An HTTP outcome: status code and optional record body. -/
structure HttpResult where
  code : Nat
  body : Option TaskDB
deriving DecidableEq, Repr

/-- FastAPI response-model validation against `TaskResponse`
(`description: str`, `status: TaskStatus`, `priority: TaskPriority`): the
serialized row must carry a non-null description and enum-valid status and
priority strings, else serialization raises after the handler body ran. -/
def responseOk (t : TaskDB) : Bool :=
  t.description.isSome && (parseStatus t.status).isSome
    && (parsePriority t.priority).isSome

/-- `POST /tasks`: pydantic rejects an invalid body with 422 before the
handler body runs (storage untouched); otherwise the record is created and
committed, then serialized through `response_model=TaskResponse` — a row
failing response validation (a NULL description) raises only after the
commit, so the resulting 500 leaves the new row persisted. -/
def postTasks (db : Store) (p : RawCreatePayload) (now : Nat) :
    Outcome HttpResult × Store :=
  match validateCreate p with
  | none => (.returned ⟨422, none⟩, db)
  | some payload =>
    let r := TaskService.create_task db payload now
    if responseOk r.1 then (.returned ⟨201, some r.1⟩, r.2)
    else (.raised, r.2)

/-- `PUT /tasks/\x7btask_id\x7d`: maps the service's `None` sentinel to 404
and a normal result to 200; an uncaught exception propagates as a 500. -/
def putTask (db : Store) (task_id : Nat) (f : UpdateFields) (now : Nat) :
    Outcome HttpResult × Store :=
  match TaskService.update_task db task_id f now with
  | (.raised, db') => (.raised, db')
  | (.returned none, db') => (.returned ⟨404, none⟩, db')
  | (.returned (some t), db') => (.returned ⟨200, some t⟩, db')

/-- A row satisfies every provided filter; an absent filter constrains
nothing (AND semantics). -/
def matchesFilters (status : Option TaskStatus) (priority : Option TaskPriority)
    (t : TaskDB) : Bool :=
  (match status with
   | some s => t.status == s.value
   | none => true) &&
  (match priority with
   | some p => t.priority == p.value
   | none => true)

/-! ## Helper lemmas -/

lemma le_foldr_max (l : List Nat) (x : Nat) (hx : x ∈ l) : x ≤ l.foldr max 0 := by
  induction l with
  | nil => cases hx
  | cons a rest ih =>
    rcases List.mem_cons.mp hx with h | h
    · subst h; exact le_max_left _ _
    · exact le_trans (ih h) (le_max_right _ _)

lemma id_lt_nextId (db : Store) (t : TaskDB) (ht : t ∈ db) : t.id < nextId db := by
  have h1 : t.id ∈ db.map (·.id) := List.mem_map_of_mem _ ht
  have h2 := le_foldr_max _ _ h1
  simp only [nextId]
  omega

lemma find?_id_eq_none_of_lt (db : Store) (i : Nat)
    (h : ∀ t ∈ db, t.id < i) : db.find? (fun u => u.id == i) = none := by
  rw [List.find?_eq_none]
  intro x hx
  simp only [beq_iff_eq]
  exact Nat.ne_of_lt (h x hx)

lemma repoGet_some_id (db : Store) (i : Nat) (t : TaskDB)
    (h : repoGet db i = some t) : t.id = i := by
  have := List.find?_some h
  simpa using this

lemma repoGet_map_replace (db : Store) (i : Nat) (t t' : TaskDB)
    (hfind : repoGet db i = some t) (hid : t'.id = t.id) :
    repoGet (db.map (fun u => if u.id == t.id then t' else u)) i = some t' := by
  have hti : t.id = i := repoGet_some_id db i t hfind
  induction db with
  | nil => simp [repoGet] at hfind
  | cons u rest ih =>
    by_cases hc : u.id = i
    · have hb : (u.id == i) = true := beq_iff_eq.mpr hc
      have hu : u = t := by
        simp only [repoGet, List.find?_cons, hb] at hfind
        exact Option.some.inj hfind
      have hb2 : (u.id == t.id) = true := beq_iff_eq.mpr (by rw [hu])
      have hb3 : (t'.id == i) = true := beq_iff_eq.mpr (by rw [hid, hti])
      simp only [List.map_cons, hb2, if_true, repoGet, List.find?_cons, hb3]
    · have hb : (u.id == i) = false := beq_eq_false_iff_ne.mpr hc
      have hfind' : repoGet rest i = some t := by
        simp only [repoGet, List.find?_cons, hb] at hfind
        exact hfind
      have hb2 : (u.id == t.id) = false := by rw [hti]; exact hb
      have hmap : (if (u.id == t.id) = true then t' else u) = u := by
        rw [hb2]; simp
      simp only [List.map_cons, hmap, repoGet, List.find?_cons, hb]
      exact ih hfind'

/-! ## Claim theorems -/

/-- C6: for every valid creation payload, `get_task` applied to the id of the
record returned by `create_task` returns exactly that record (in the
embedding the records agree on `updated_at` too, which is stronger than the
claim's timing-precision allowance). -/
theorem create_get_roundtrip (db : Store) (payload : TaskCreate) (now : Nat) :
    TaskService.get_task (TaskService.create_task db payload now).2
        (TaskService.create_task db payload now).1.id =
      some (TaskService.create_task db payload now).1 := by
  simp only [TaskService.create_task, TaskService.get_task, repoCreate, repoGet]
  rw [List.find?_append]
  rw [find?_id_eq_none_of_lt db _ (fun t ht => id_lt_nextId db t ht)]
  simp [List.find?_cons]

/-- C9: updating an id absent from storage returns the `None` sentinel, the
handler maps it to 404, and the storage state is unchanged. -/
theorem update_absent_untouched (db : Store) (task_id : Nat) (f : UpdateFields)
    (now : Nat) (h : TaskService.get_task db task_id = none) :
    TaskService.update_task db task_id f now = (.returned none, db) ∧
      putTask db task_id f now = (.returned ⟨404, none⟩, db) := by
  have h' : repoGet db task_id = none := h
  constructor
  · simp [TaskService.update_task, h']
  · simp [putTask, TaskService.update_task, h']

/-- C3: after `delete_task` succeeds, `get_task` on that id returns the
not-found sentinel and a second `delete_task` returns `false` with the store
unchanged. -/
theorem delete_finality (db db' : Store) (task_id : Nat)
    (h : TaskService.delete_task db task_id = (true, db')) :
    TaskService.get_task db' task_id = none ∧
      TaskService.delete_task db' task_id = (false, db') := by
  cases hget : repoGet db task_id with
  | none =>
    simp [TaskService.delete_task, hget] at h
  | some task =>
    have hdb' : db' = repoDelete db task := by
      simp only [TaskService.delete_task, hget] at h
      exact (Prod.mk.injEq _ _ _ _ ▸ h).2.symm
    have hti : task.id = task_id := repoGet_some_id db task_id task hget
    have hnone : repoGet db' task_id = none := by
      subst hdb'
      rw [repoGet, List.find?_eq_none]
      intro x hx
      have hmem := (List.mem_filter.mp hx).2
      simp only [bne_iff_ne, ne_eq, decide_eq_true_eq] at hmem
      simp only [beq_iff_eq]
      rw [hti] at hmem
      exact hmem
    refine ⟨hnone, ?_⟩
    simp [TaskService.delete_task, hnone]

/-- C10: an update whose payload sets no fields succeeds and returns the
record with id, title, description, status, priority and created_at
unchanged while updated_at is refreshed to the current time. -/
theorem update_empty_payload (db : Store) (task_id : Nat) (now : Nat)
    (t : TaskDB) (hget : TaskService.get_task db task_id = some t) :
    (TaskService.update_task db task_id UpdateFields.empty now).1 =
        .returned (some { t with updated_at := now }) ∧
      TaskService.get_task
          (TaskService.update_task db task_id UpdateFields.empty now).2 task_id =
        some { t with updated_at := now } := by
  have h' : repoGet db task_id = some t := hget
  have hrep : repoUpdate db t UpdateFields.empty now =
      .returned ({ t with updated_at := now },
        db.map (fun u =>
          if u.id == t.id then { t with updated_at := now } else u)) := rfl
  constructor
  · simp [TaskService.update_task, h', hrep]
  · simp only [TaskService.update_task, h', hrep, TaskService.get_task]
    exact repoGet_map_replace db task_id t _ h' rfl

/-- C1 counterexample: a partial payload explicitly setting title to null is
accepted by `TaskUpdate` validation (title is `Optional[str]`), but the
update then faults at commit on the NOT NULL title column: the call raises
(HTTP 500), no stored field holds the new value, and the store is
unchanged — refuting the claim for that payload. -/
theorem update_null_title_faults :
    TaskService.update_task [⟨1, "A", some "", "pending", "low", 0, 0⟩] 1
        ⟨some none, none, none, none⟩ 5 =
      (.raised, [⟨1, "A", some "", "pending", "low", 0, 0⟩]) :=
  rfl

/-- C1 amended: for an existing task and a partial payload whose explicitly
present title, status and priority values are non-null, the update succeeds:
present fields hold exactly the new values, every absent field is unchanged,
and updated_at is refreshed to the current time, which is at least its prior
value under a monotone clock; the stored record after the call is the
returned one.  (A payload explicitly nulling title, status or priority
instead faults at commit with the store unchanged.) -/
theorem update_partial_isolation (db : Store) (task_id : Nat) (f : UpdateFields)
    (now : Nat) (t : TaskDB)
    (hget : TaskService.get_task db task_id = some t)
    (hclock : t.updated_at ≤ now)
    (hT : f.title ≠ some none) (hS : f.status ≠ some none)
    (hP : f.priority ≠ some none) :
    ∃ t', (TaskService.update_task db task_id f now).1 = .returned (some t') ∧
      TaskService.get_task (TaskService.update_task db task_id f now).2 task_id
        = some t' ∧
      (∀ x, f.title = some (some x) → t'.title = x) ∧
      (f.title = none → t'.title = t.title) ∧
      (∀ d, f.description = some d → t'.description = d) ∧
      (f.description = none → t'.description = t.description) ∧
      (∀ s, f.status = some (some s) → t'.status = s.value) ∧
      (f.status = none → t'.status = t.status) ∧
      (∀ p, f.priority = some (some p) → t'.priority = p.value) ∧
      (f.priority = none → t'.priority = t.priority) ∧
      t'.id = t.id ∧ t'.created_at = t.created_at ∧
      t'.updated_at = now ∧ t.updated_at ≤ t'.updated_at := by
  have h' : repoGet db task_id = some t := hget
  obtain ⟨ti, hti⟩ : ∃ ti, newTitle t f = some ti := by
    cases hft : f.title with
    | none => exact ⟨t.title, by simp [newTitle, hft]⟩
    | some v =>
      cases v with
      | none => exact absurd hft hT
      | some x => exact ⟨x, by simp [newTitle, hft]⟩
  obtain ⟨st, hst⟩ : ∃ st, newStatus t f = some st := by
    cases hfs : f.status with
    | none => exact ⟨t.status, by simp [newStatus, hfs]⟩
    | some v =>
      cases v with
      | none => exact absurd hfs hS
      | some s => exact ⟨s.value, by simp [newStatus, hfs]⟩
  obtain ⟨pr, hpr⟩ : ∃ pr, newPriority t f = some pr := by
    cases hfp : f.priority with
    | none => exact ⟨t.priority, by simp [newPriority, hfp]⟩
    | some v =>
      cases v with
      | none => exact absurd hfp hP
      | some q => exact ⟨q.value, by simp [newPriority, hfp]⟩
  refine ⟨⟨t.id, ti, newDescription t f, st, pr, t.created_at, now⟩,
    ?_, ?_, ?_, ?_, ?_, ?_, ?_, ?_, ?_, ?_, rfl, rfl, rfl, ?_⟩
  · simp [TaskService.update_task, h', repoUpdate, hti, hst, hpr]
  · simp only [TaskService.update_task, h', repoUpdate, hti, hst, hpr,
      TaskService.get_task]
    exact repoGet_map_replace db task_id t _ h' rfl
  · intro x hx
    have h1 : newTitle t f = some x := by simp [newTitle, hx]
    rw [hti] at h1
    exact Option.some.inj h1
  · intro hx
    have h1 : newTitle t f = some t.title := by simp [newTitle, hx]
    rw [hti] at h1
    exact Option.some.inj h1
  · intro d hd
    simp [newDescription, hd]
  · intro hd
    simp [newDescription, hd]
  · intro s hs
    have h1 : newStatus t f = some s.value := by simp [newStatus, hs]
    rw [hst] at h1
    exact Option.some.inj h1
  · intro hs
    have h1 : newStatus t f = some t.status := by simp [newStatus, hs]
    rw [hst] at h1
    exact Option.some.inj h1
  · intro p hp
    have h1 : newPriority t f = some p.value := by simp [newPriority, hp]
    rw [hpr] at h1
    exact Option.some.inj h1
  · intro hp
    have h1 : newPriority t f = some t.priority := by simp [newPriority, hp]
    rw [hpr] at h1
    exact Option.some.inj h1
  · exact hclock

lemma statusValue_ne_empty (s : TaskStatus) : s.value ≠ "" := by
  cases s <;> simp [TaskStatus.value]

lemma priorityValue_ne_empty (p : TaskPriority) : p.value ≠ "" := by
  cases p <;> simp [TaskPriority.value]

/-- The list endpoint returns the `[skip, skip+limit)` slice of the rows that
satisfy every provided filter, in the store's stable order. -/
lemma list_tasks_eq_slice (db : Store) (st : Option TaskStatus)
    (pr : Option TaskPriority) (skip limit : Nat) :
    TaskService.list_tasks db st pr skip limit =
      ((db.filter (matchesFilters st pr)).drop skip).take limit := by
  cases st with
  | none =>
    cases pr with
    | none =>
      have h1 : matchesFilters none none = fun _ : TaskDB => true := by
        funext t; simp [matchesFilters]
      simp [TaskService.list_tasks, repoList, h1]
    | some p =>
      have h1 : matchesFilters none (some p)
          = fun t : TaskDB => t.priority == p.value := by
        funext t; simp [matchesFilters]
      simp only [TaskService.list_tasks, repoList, Option.map_none, Option.map_none', Option.map_some',
        Option.map_some, h1]
      rw [if_neg (priorityValue_ne_empty p)]
  | some s =>
    cases pr with
    | none =>
      have h1 : matchesFilters (some s) none
          = fun t : TaskDB => t.status == s.value := by
        funext t; simp [matchesFilters]
      simp only [TaskService.list_tasks, repoList, Option.map_none, Option.map_none', Option.map_some',
        Option.map_some, h1]
      rw [if_neg (statusValue_ne_empty s)]
    | some p =>
      have h1 :
          (db.filter (fun t => t.status == s.value)).filter
              (fun t => t.priority == p.value)
            = db.filter (matchesFilters (some s) (some p)) := by
        rw [List.filter_filter]
        apply List.filter_congr
        intro x _
        simp [matchesFilters, Bool.and_comm]
      simp only [TaskService.list_tasks, repoList, Option.map_some']
      rw [if_neg (statusValue_ne_empty s), if_neg (priorityValue_ne_empty p),
        h1]

/-- C2: every record returned by list_tasks satisfies all provided filters
(absent filter constrains nothing), and the record at any position of the
filtered store falling inside `[skip, skip+limit)` is returned. -/
theorem list_filter_correct (db : Store) (st : Option TaskStatus)
    (pr : Option TaskPriority) (skip limit : Nat)
    (hlim : 1 ≤ limit ∧ limit ≤ 1000) :
    (∀ t ∈ TaskService.list_tasks db st pr skip limit,
        (∀ s, st = some s → t.status = s.value) ∧
        (∀ p, pr = some p → t.priority = p.value)) ∧
    (∀ i, skip ≤ i → i < skip + limit →
        ∀ h : i < (db.filter (matchesFilters st pr)).length,
        (db.filter (matchesFilters st pr)).get ⟨i, h⟩ ∈
          TaskService.list_tasks db st pr skip limit) := by
  rw [list_tasks_eq_slice]
  constructor
  · intro t ht
    have h1 : t ∈ db.filter (matchesFilters st pr) :=
      List.mem_of_mem_drop (List.mem_of_mem_take ht)
    have h2 : matchesFilters st pr t = true := (List.mem_filter.mp h1).2
    rw [matchesFilters.eq_def, Bool.and_eq_true] at h2
    constructor
    · intro s hs
      subst hs
      have := h2.1
      simpa using this
    · intro p hp
      subst hp
      have := h2.2
      simpa using this
  · intro i hskip hupper h
    have hj2 : i - skip < ((db.filter (matchesFilters st pr)).drop skip).length := by
      rw [List.length_drop]; omega
    have hj3 : i - skip <
        (((db.filter (matchesFilters st pr)).drop skip).take limit).length := by
      rw [List.length_take, List.length_drop]
      omega
    have hadd : skip + (i - skip) = i := by omega
    have he1 : (((db.filter (matchesFilters st pr)).drop skip).take limit).get
          ⟨i - skip, hj3⟩
        = ((db.filter (matchesFilters st pr)).drop skip).get ⟨i - skip, hj2⟩ := by
      simp only [List.get_eq_getElem]
      exact List.getElem_take _
    have he2 : ((db.filter (matchesFilters st pr)).drop skip).get ⟨i - skip, hj2⟩
        = (db.filter (matchesFilters st pr)).get ⟨i, h⟩ := by
      have h' : skip + (i - skip) < (db.filter (matchesFilters st pr)).length := by
        omega
      simp only [List.get_eq_getElem]
      rw [List.getElem_drop (db.filter (matchesFilters st pr))]
      congr 1
    rw [← he2, ← he1]
    exact List.get_mem _ _ _

lemma mem_distinctVals (l : List String) (s : String) :
    s ∈ distinctVals l ↔ s ∈ l := by
  induction l with
  | nil => simp [distinctVals]
  | cons a rest ih =>
    simp only [distinctVals]
    by_cases h : a ∈ distinctVals rest
    · rw [if_pos h]
      constructor
      · intro hs
        exact List.mem_cons_of_mem _ (ih.mp hs)
      · intro hs
        rcases List.mem_cons.mp hs with h1 | h1
        · subst h1; exact h
        · exact ih.mpr h1
    · rw [if_neg h]
      simp [List.mem_cons, ih]

lemma distinctVals_nodup (l : List String) : (distinctVals l).Nodup := by
  induction l with
  | nil => simp [distinctVals]
  | cons a rest ih =>
    simp only [distinctVals]
    by_cases h : a ∈ distinctVals rest
    · rw [if_pos h]; exact ih
    · rw [if_neg h]; exact List.nodup_cons.mpr ⟨h, ih⟩

lemma sum_counts_cover (ds : List String) :
    ∀ l : List String, ds.Nodup → (∀ s ∈ l, s ∈ ds) →
      ((ds.map (fun s => (l.filter (· == s)).length)).sum) = l.length := by
  induction ds with
  | nil =>
    intro l _ hcov
    have hl : l = [] := List.eq_nil_iff_forall_not_mem.mpr
      (fun a ha => (List.not_mem_nil a) (hcov a ha))
    simp [hl]
  | cons d ds ih =>
    intro l hnd hcov
    have hd : d ∉ ds := (List.nodup_cons.mp hnd).1
    have hnd' : ds.Nodup := (List.nodup_cons.mp hnd).2
    have hmapeq : ds.map (fun s => (l.filter (· == s)).length)
        = ds.map (fun s =>
            ((l.filter (fun x => !(x == d))).filter (· == s)).length) := by
      apply List.map_congr_left
      intro s hs
      have hsne : s ≠ d := fun h => hd (h ▸ hs)
      have heq : l.filter (· == s)
          = (l.filter (fun x => !(x == d))).filter (· == s) := by
        rw [List.filter_filter]
        apply List.filter_congr
        intro x _
        by_cases hx : x = s
        · subst hx
          simp [hsne]
        · simp [hx]
      rw [heq]
    have hcov' : ∀ s ∈ l.filter (fun x => !(x == d)), s ∈ ds := by
      intro s hs
      have h1 := List.mem_filter.mp hs
      have h2 : s ≠ d := by simpa using h1.2
      rcases List.mem_cons.mp (hcov s h1.1) with h3 | h3
      · exact absurd h3 h2
      · exact h3
    have hsplit := List.length_eq_length_filter_add (l := l) (fun x => x == d)
    simp only [List.map_cons, List.sum_cons, hmapeq, ih _ hnd' hcov']
    omega

lemma groupCounts_sum (l : List String) :
    ((groupCounts l).map (fun x => x.2)).sum = l.length := by
  have h := sum_counts_cover (distinctVals l) l (distinctVals_nodup l)
    (fun s hs => (mem_distinctVals l s).mpr hs)
  simpa [groupCounts, List.map_map, Function.comp] using h

lemma groupCounts_pos (l : List String) (x : String × Nat)
    (hx : x ∈ groupCounts l) : 0 < x.2 ∧ x.1 ∈ l := by
  simp only [groupCounts, List.mem_map] at hx
  obtain ⟨s, hs, rfl⟩ := hx
  have hsl : s ∈ l := (mem_distinctVals l s).mp hs
  refine ⟨?_, hsl⟩
  have hmem : s ∈ l.filter (· == s) := List.mem_filter.mpr ⟨hsl, by simp⟩
  exact List.length_pos_of_mem hmem

/-- C4: for every storage state, the by_status counts sum to total_tasks and
so do the by_priority counts, and every group in the result has a strictly
positive count for a value actually present in storage (zero groups are
omitted). -/
theorem stats_consistency (db : Store) :
    (((TaskService.stats db).by_status.map (fun x => x.2)).sum
        = (TaskService.stats db).total_tasks) ∧
    (((TaskService.stats db).by_priority.map (fun x => x.2)).sum
        = (TaskService.stats db).total_tasks) ∧
    (∀ x ∈ (TaskService.stats db).by_status,
        0 < x.2 ∧ x.1 ∈ db.map (·.status)) ∧
    (∀ x ∈ (TaskService.stats db).by_priority,
        0 < x.2 ∧ x.1 ∈ db.map (·.priority)) := by
  refine ⟨?_, ?_, ?_, ?_⟩
  · show ((groupCounts (db.map (·.status))).map (fun x => x.2)).sum = db.length
    rw [groupCounts_sum, List.length_map]
  · show ((groupCounts (db.map (·.priority))).map (fun x => x.2)).sum = db.length
    rw [groupCounts_sum, List.length_map]
  · intro x hx
    exact groupCounts_pos _ x hx
  · intro x hx
    exact groupCounts_pos _ x hx

lemma bind_const_none {α β : Type} (x : Option α) :
    x.bind (fun _ => (none : Option β)) = none := by
  cases x <;> rfl

lemma parseStatus_eq_none (s : String) (h : s ∉ statusValues) :
    parseStatus s = none := by
  simp only [statusValues, List.mem_cons, List.not_mem_nil, or_false,
    not_or] at h
  simp only [parseStatus]
  rw [if_neg h.1, if_neg h.2.1, if_neg h.2.2]

lemma parsePriority_eq_none (s : String) (h : s ∉ priorityValues) :
    parsePriority s = none := by
  simp only [priorityValues, List.mem_cons, List.not_mem_nil, or_false,
    not_or] at h
  simp only [parsePriority]
  rw [if_neg h.1, if_neg h.2.1, if_neg h.2.2]

/-- C5: a creation request whose status or priority string is outside its
closed enumeration, or whose title field is missing, is rejected with 422
before touching storage: the handler persists nothing and the storage state
is unchanged. -/
theorem create_invalid_rejected (db : Store) (p : RawCreatePayload) (now : Nat)
    (h : p.title = none ∨
      (∃ s, p.status = some (some s) ∧ s ∉ statusValues) ∨
      (∃ s, p.priority = some (some s) ∧ s ∉ priorityValues)) :
    postTasks db p now = (.returned ⟨422, none⟩, db) := by
  have hval : validateCreate p = none := by
    rcases h with h | ⟨s, hs, hmem⟩ | ⟨s, hs, hmem⟩
    · simp [validateCreate, h, parseTitleField]
    · have hps := parseStatus_eq_none s hmem
      simp [validateCreate, hs, parseStatusField, hps, bind_const_none]
    · have hpp := parsePriority_eq_none s hmem
      simp [validateCreate, hs, parsePriorityField, hpp, bind_const_none]
  simp [postTasks, hval]

/-- C7 counterexample: a creation request whose title is the empty string
passes validation (201) and persists a task with empty title, refuting the
non-empty-title invariant as stated. -/
theorem empty_title_accepted :
    postTasks [] ⟨some (some ""), none, none, none⟩ 0 =
      (.returned ⟨201, some ⟨1, "", some "", "pending", "medium", 0, 0⟩⟩,
        [⟨1, "", some "", "pending", "medium", 0, 0⟩]) :=
  rfl

/-- C7 amended: every payload accepted by create validation has the title
field present and non-null, and the validated title is exactly that string
(which may be empty). -/
theorem create_title_present (p : RawCreatePayload) (c : TaskCreate)
    (h : validateCreate p = some c) :
    p.title = some (some c.title) := by
  simp only [validateCreate] at h
  obtain ⟨t, hT, h2⟩ := Option.bind_eq_some.mp h
  obtain ⟨d, hD, h3⟩ := Option.bind_eq_some.mp h2
  obtain ⟨st, hS, h4⟩ := Option.bind_eq_some.mp h3
  obtain ⟨pr, hP, h5⟩ := Option.map_eq_some'.mp h4
  cases htt : p.title with
  | none => rw [htt] at hT; cases hT
  | some o =>
    cases o with
    | none => rw [htt] at hT; cases hT
    | some t0 =>
      rw [htt] at hT
      have ht0 : t0 = t := by simpa [parseTitleField] using hT
      rw [← h5, ht0]

theorem create_title_present_witness :
    validateCreate ⟨some (some "Test"), none, none, none⟩ =
        some ⟨"Test", some "", .pending, .medium⟩ ∧
      (⟨some (some "Test"), none, none, none⟩ : RawCreatePayload).title =
        some (some (⟨"Test", some "", .pending,
          .medium⟩ : TaskCreate).title) :=
  ⟨rfl, create_title_present ⟨some (some "Test"), none, none, none⟩
    ⟨"Test", some "", .pending, .medium⟩ rfl⟩

/-- C8 counterexample: a creation request with description explicitly null
passes request validation, the row is created and committed with a NULL
description, and only then does response-model serialization
(`TaskResponse.description: str`) fail — the handler raises (HTTP 500) but
the NULL-description row remains persisted, refuting the never-null claim
as stated. -/
theorem null_description_persisted :
    validateCreate ⟨some (some "x"), some none, none, none⟩ =
        some ⟨"x", none, .pending, .medium⟩ ∧
      postTasks [] ⟨some (some "x"), some none, none, none⟩ 0 =
        (.raised, [⟨1, "x", none, "pending", "medium", 0, 0⟩]) :=
  ⟨rfl, rfl⟩

/-- C8 amended: a task created with the description field omitted persists
with description equal to the empty string; only an explicit null in the
payload can make the stored description null. -/
theorem description_omitted_defaults_empty (p : RawCreatePayload)
    (c : TaskCreate) (db : Store) (now : Nat)
    (hdesc : p.description = none) (h : validateCreate p = some c) :
    c.description = some "" ∧
      (TaskService.create_task db c now).1.description = some "" := by
  have hcd : c.description = some "" := by
    simp only [validateCreate, hdesc, parseDescriptionField] at h
    obtain ⟨t, hT, h2⟩ := Option.bind_eq_some.mp h
    obtain ⟨d, hD, h3⟩ := Option.bind_eq_some.mp h2
    obtain ⟨st, hS, h4⟩ := Option.bind_eq_some.mp h3
    obtain ⟨pr, hP, h5⟩ := Option.map_eq_some'.mp h4
    have hd : d = some "" := (Option.some.inj hD).symm
    rw [← h5, hd]
  refine ⟨hcd, ?_⟩
  simp [TaskService.create_task, repoCreate, TaskCreate.model_dump, hcd]

theorem description_omitted_defaults_empty_witness :
    (⟨some (some "y"), none, none, none⟩ : RawCreatePayload).description
        = none ∧
      validateCreate ⟨some (some "y"), none, none, none⟩ =
        some ⟨"y", some "", .pending, .medium⟩ ∧
      ((⟨"y", some "", .pending, .medium⟩ : TaskCreate).description
          = some "" ∧
        (TaskService.create_task [] ⟨"y", some "", .pending, .medium⟩
            0).1.description = some "") :=
  ⟨rfl, rfl, description_omitted_defaults_empty
    ⟨some (some "y"), none, none, none⟩ ⟨"y", some "", .pending, .medium⟩
    [] 0 rfl rfl⟩

/-! ## Witnesses for the hypothesis-bearing claim theorems -/

theorem update_partial_isolation_witness :
    TaskService.get_task [⟨1, "A", some "", "pending", "low", 0, 0⟩] 1 =
        some ⟨1, "A", some "", "pending", "low", 0, 0⟩ ∧
      (⟨1, "A", some "", "pending", "low", 0, 0⟩ : TaskDB).updated_at ≤ 5 ∧
      (⟨some (some "B"), none, some (some .completed),
          none⟩ : UpdateFields).title ≠ some none ∧
      ∃ t', (TaskService.update_task
          [⟨1, "A", some "", "pending", "low", 0, 0⟩] 1
          ⟨some (some "B"), none, some (some .completed), none⟩ 5).1 =
        .returned (some t') := by
  refine ⟨rfl, by decide, by decide, ?_⟩
  obtain ⟨t', h1, _⟩ := update_partial_isolation
    [⟨1, "A", some "", "pending", "low", 0, 0⟩] 1
    ⟨some (some "B"), none, some (some .completed), none⟩ 5
    ⟨1, "A", some "", "pending", "low", 0, 0⟩ rfl (by decide)
    (by decide) (by decide) (by decide)
  exact ⟨t', h1⟩

theorem list_filter_correct_witness :
    ((1 : Nat) ≤ 100 ∧ (100 : Nat) ≤ 1000) ∧
      ∀ t ∈ TaskService.list_tasks
          [⟨1, "A", some "", "pending", "low", 0, 0⟩]
          (some .pending) none 0 100,
        (∀ s, (some TaskStatus.pending = some s) → t.status = s.value) ∧
        (∀ p, (none : Option TaskPriority) = some p →
          t.priority = p.value) := by
  refine ⟨⟨by decide, by decide⟩, ?_⟩
  exact (list_filter_correct [⟨1, "A", some "", "pending", "low", 0, 0⟩]
    (some .pending) none 0 100 ⟨by decide, by decide⟩).1

theorem delete_finality_witness :
    TaskService.delete_task [⟨1, "A", some "", "pending", "low", 0, 0⟩] 1 =
        (true, ([] : Store)) ∧
      TaskService.get_task ([] : Store) 1 = none ∧
      TaskService.delete_task ([] : Store) 1 = (false, ([] : Store)) := by
  have h := delete_finality [⟨1, "A", some "", "pending", "low", 0, 0⟩] [] 1
    rfl
  exact ⟨rfl, h.1, h.2⟩

theorem create_invalid_rejected_witness :
    ((⟨some (some "T"), none, some (some "bogus"),
          none⟩ : RawCreatePayload).title = none ∨
      (∃ s, (⟨some (some "T"), none, some (some "bogus"),
          none⟩ : RawCreatePayload).status = some (some s) ∧
          s ∉ statusValues) ∨
      (∃ s, (⟨some (some "T"), none, some (some "bogus"),
          none⟩ : RawCreatePayload).priority = some (some s) ∧
          s ∉ priorityValues)) ∧
      postTasks [] ⟨some (some "T"), none, some (some "bogus"), none⟩ 0 =
        (.returned ⟨422, none⟩, []) := by
  have hh : (⟨some (some "T"), none, some (some "bogus"),
        none⟩ : RawCreatePayload).title = none ∨
      (∃ s, (⟨some (some "T"), none, some (some "bogus"),
          none⟩ : RawCreatePayload).status = some (some s) ∧
          s ∉ statusValues) ∨
      (∃ s, (⟨some (some "T"), none, some (some "bogus"),
          none⟩ : RawCreatePayload).priority = some (some s) ∧
          s ∉ priorityValues) :=
    Or.inr (Or.inl ⟨"bogus", rfl, by decide⟩)
  exact ⟨hh, create_invalid_rejected [] _ 0 hh⟩

theorem update_absent_untouched_witness :
    TaskService.get_task ([] : Store) 1 = none ∧
      (TaskService.update_task ([] : Store) 1 UpdateFields.empty 0 =
          (.returned none, ([] : Store)) ∧
        putTask ([] : Store) 1 UpdateFields.empty 0 =
          (.returned ⟨404, none⟩, ([] : Store))) :=
  ⟨rfl, update_absent_untouched [] 1 UpdateFields.empty 0 rfl⟩

theorem update_empty_payload_witness :
    TaskService.get_task [⟨1, "A", some "", "pending", "low", 0, 0⟩] 1 =
        some ⟨1, "A", some "", "pending", "low", 0, 0⟩ ∧
      ((TaskService.update_task [⟨1, "A", some "", "pending", "low", 0, 0⟩] 1
            UpdateFields.empty 7).1 =
          .returned (some ⟨1, "A", some "", "pending", "low", 0, 7⟩) ∧
        TaskService.get_task
            (TaskService.update_task
              [⟨1, "A", some "", "pending", "low", 0, 0⟩] 1
              UpdateFields.empty 7).2 1 =
          some ⟨1, "A", some "", "pending", "low", 0, 7⟩) :=
  ⟨rfl, update_empty_payload [⟨1, "A", some "", "pending", "low", 0, 0⟩] 1 7
    ⟨1, "A", some "", "pending", "low", 0, 0⟩ rfl⟩

end TaskAPI
